import Mathlib

/-!
Shallow embedding of the sentiment-analysis fulfillment pipeline.

Source files embedded here:
- properties.js  : static configuration values
- admin.js       : the Admin class (token, fetch, delete) and the Express
                   app.post handler (the fulfillment pipeline)
- gcstorage.js   : the GCStorage class (upload of the three artifacts)
- sentiment.js   : the Sentiment class (speech-to-text, sentiment analysis)

Modelling conventions.
Each remote call is split into a pure `...Result` function on the remote
service's HTTP response (translating the then-chain of the source) and a
wrapper that pairs the result with the list of observable events occurring
on that promise chain, in order: the outbound request, the blob-write
start/finish events, and the log entries.  JS promise chains become
`Except` values threaded through matches; a `.then` callback that does not
return an inner promise is modelled by recording the inner operation's
start event without its completion (the `pending` field collects such
writes).  JS `undefined` string values are `Option.none`
(`JsStr := Option String`), stringified as "undefined" where the source
concatenates them.  JS truthiness of a string field is `truthy` (non-null
and non-empty).  Blob contents never influence control flow in the source,
so the storage model identifies a write by its blob name only.
-/

/-! properties.js -/

def properties.incontactVersion : String := "v11.0"

def properties.incontactName : String := "yourName"

def properties.incontactVendor : String := "yourName"

def properties.incontactKey : String := "yourKey"

def properties.incontactTokenUrl : String :=
  "https://api.incontact.com/InContactAuthorizationServer/Token"

def properties.incontactUser : String := "yourUser"

def properties.incontactPwd : String := "yourPwd"

def properties.path : String := "/process"

def properties.listenPort : Nat := 9080

/-! btoa: standard base64 encoding of a Latin-1 string, as used by the
`btoa` npm package in admin.js.  Bytes are taken as `Char.toNat`. -/

def base64Chars : String :=
  "ABCDEFGHIJKLMNOPQRSTUVWXYZabcdefghijklmnopqrstuvwxyz0123456789+/"

def b64Char (n : Nat) : Char := base64Chars.toList.getD n 'A'

def btoaBytes : List Nat → String
  | [] => ""
  | [a] =>
      String.mk [b64Char (a / 4), b64Char (a % 4 * 16)] ++ "=="
  | [a, b] =>
      String.mk [b64Char (a / 4), b64Char (a % 4 * 16 + b / 16),
        b64Char (b % 16 * 4)] ++ "="
  | a :: b :: c :: rest =>
      String.mk [b64Char (a / 4), b64Char (a % 4 * 16 + b / 16),
        b64Char (b % 16 * 4 + c / 64), b64Char (c % 64)] ++ btoaBytes rest

def btoa (s : String) : String := btoaBytes (s.toList.map Char.toNat)

/-! JS string helpers -/

/-- A JS string variable that may be `undefined` (e.g. a missing request
body field that is passed along unchecked). -/
abbrev JsStr := Option String

/-- JS string coercion at a concatenation site: `undefined` stringifies to
"undefined". -/
def jsToStr : JsStr → String
  | some s => s
  | none => "undefined"

/-- JS truthiness of an optional string field: present and non-empty. -/
def truthy : Option String → Bool
  | some s => !(s == "")
  | none => false

/-! Data model: the JSON bodies of the four remote services (section 6 of
the spec), with every field that the source tests for presence an
`Option`. -/

structure TokenJson where
  access_token : Option String
  resource_server_base_uri : Option String
  deriving DecidableEq, Repr

/-- The `files` object of a file-fetch response; `file` is the
Base64-encoded contents of the recording, and may itself be absent
(the source dereferences files.file.length while logging, which throws
when `file` is undefined). -/
structure FilesObj where
  file : Option String
  deriving DecidableEq, Repr

structure FileJson where
  files : Option FilesObj
  deriving DecidableEq, Repr

structure SttAlt where
  transcript : Option String
  deriving DecidableEq, Repr

structure SttResult where
  alternatives : Option (List SttAlt)
  deriving DecidableEq, Repr

structure SttJson where
  results : Option (List SttResult)
  deriving DecidableEq, Repr

/-- Document-level sentiment score returned by the sentiment service; the
source passes it through without inspecting its fields. -/
structure DocSentiment where
  score : Int
  magnitude : Int
  deriving DecidableEq, Repr

structure SntJson where
  documentSentiment : Option DocSentiment
  deriving DecidableEq, Repr

/-- Result of Sentiment._analyze: the original input text paired with the
response's documentSentiment. -/
structure SentimentResult where
  transcript : String
  sentiment : DocSentiment
  deriving DecidableEq, Repr

/-- An HTTP response as seen by the node-fetch then-chains: `ok` status
flag, numeric status, statusText, and the parsed JSON body.  A body type
`Option α` has `none` for a literally null JSON body. -/
structure HttpResp (α : Type) where
  ok : Bool
  status : Nat
  statusText : String
  body : α
  deriving DecidableEq, Repr

/-- The JSON body of the token request built in Admin._getToken. -/
structure TokenReqBody where
  grant_type : String
  username : String
  password : String
  deriving DecidableEq, Repr

/-- An outbound token request: url, method, body and Authorization
header, as assembled by the fetch call in Admin._getToken. -/
structure FetchRequest where
  url : String
  method : String
  body : TokenReqBody
  authHeader : String
  deriving DecidableEq, Repr

deriving instance DecidableEq for Except

/-! Errors (section 7 taxonomy): each constructor marks the stage whose
then-chain threw, carrying the thrown message. -/

inductive PErr where
  | authError (msg : String)
  | fetchError (msg : String)
  | deleteError (msg : String)
  | transcriptionError (msg : String)
  | analysisError (msg : String)
  | storeError (blobName : String)
  deriving DecidableEq, Repr

/-- Logging sites of the source, named by the function that logs. -/
inductive Stage where
  | getToken
  | getFile
  | removeFile
  | get
  | remove
  | stt
  | analyze
  | process
  | save
  | upload
  | webserver
  deriving DecidableEq, Repr

/-- Observable events of one job, in the order they occur on the promise
chains. -/
inductive Ev where
  | tokenReq (req : FetchRequest)
  | fileReq (fileName : JsStr)
  | sttReq
  | sntReq
  | saveStart (name : String)
  | saveFinish (name : String)
  | deleteReq (fileName : JsStr)
  | logInfo (contactId : JsStr) (stage : Stage)
  | logError (contactId : JsStr) (stage : Stage)
  deriving DecidableEq, Repr

/-- The remote world one job runs against: the responses each outbound
call would receive, and whether each blob-write stream finishes or
errors.  `tokenResp` answers the token call made by admin.get,
`tokenResp2` the one made by admin.remove. -/
structure World where
  tokenResp : HttpResp (Option TokenJson)
  fileResp : HttpResp (Option FileJson)
  sttResp : HttpResp SttJson
  sntResp : HttpResp SntJson
  saveOk : String → Bool
  tokenResp2 : HttpResp (Option TokenJson)
  deleteResp : HttpResp Unit

/-! admin.js : class Admin -/

/-- The constructor's precomputed credential:
btoa(incontactName + '@' + incontactVendor + ':' + incontactKey). -/
def Admin.key : String :=
  btoa (properties.incontactName ++ "@" ++ properties.incontactVendor ++
    ":" ++ properties.incontactKey)

/-- The fetch request assembled by Admin._getToken.  `key` is the
function's second parameter; note the source's Authorization header uses
`this.key` (Admin.key), not this parameter. -/
def Admin.tokenRequest (key : String) (url : String) : FetchRequest :=
  { url := url
    method := "POST"
    body := { grant_type := "password"
              username := properties.incontactUser
              password := properties.incontactPwd }
    authHeader := "basic " ++ Admin.key }

/-- The then-chain of Admin._getToken on the token response: non-ok
status throws; a body failing the truthiness test
`json && json.access_token && json.resource_server_base_uri` throws
'Missing token and/or uri'; otherwise the json is returned unchanged. -/
def Admin.getTokenResult (r : HttpResp (Option TokenJson)) :
    Except PErr TokenJson :=
  if r.ok then
    match r.body with
    | some json =>
        if truthy json.access_token && truthy json.resource_server_base_uri then
          Except.ok json
        else
          Except.error (PErr.authError "Missing token and/or uri")
    | none => Except.error (PErr.authError "Missing token and/or uri")
  else
    Except.error (PErr.authError ("Response status: " ++ toString r.status))

/-- Admin._getToken: issues the token request, then settles as
`getTokenResult`; logs info on success, logs error (and rethrows) in the
catch. -/
def Admin._getToken (contactId : JsStr) (key : String) (url : String)
    (r : HttpResp (Option TokenJson)) : Except PErr TokenJson × List Ev :=
  (Admin.getTokenResult r,
    Ev.tokenReq (Admin.tokenRequest key url) ::
      (match Admin.getTokenResult r with
       | Except.ok _ => [Ev.logInfo contactId Stage.getToken]
       | Except.error _ => [Ev.logError contactId Stage.getToken]))

/-- The then-chain of Admin._getFile on the file response: non-ok status
throws; a body failing `json && json.files` throws 'Missing files
object'; otherwise the success branch first logs the fetched length via
the dereference json.files.file.length, which throws a TypeError when
`file` is undefined (modelled as a fetchError carrying a TypeError
message, since JS apostrophes cannot appear here the exact TypeError
text is paraphrased), and only then returns the files object
unchanged. -/
def Admin.getFileResult (r : HttpResp (Option FileJson)) :
    Except PErr FilesObj :=
  if r.ok then
    match r.body with
    | some json =>
        match json.files with
        | some fo =>
            match fo.file with
            | some _ => Except.ok fo
            | none =>
                Except.error (PErr.fetchError
                  "TypeError: Cannot read property length of undefined")
        | none => Except.error (PErr.fetchError "Missing files object")
    | none => Except.error (PErr.fetchError "Missing files object")
  else
    Except.error (PErr.fetchError ("Response status: " ++ toString r.status))

/-- Admin._getFile: issues the GET for `fileName`, then settles as
`getFileResult`; logs the fetched length on success, logs error in the
catch. -/
def Admin._getFile (contactId : JsStr) (token : Option String)
    (uri : Option String) (fileName : JsStr)
    (r : HttpResp (Option FileJson)) : Except PErr FilesObj × List Ev :=
  (Admin.getFileResult r,
    Ev.fileReq fileName ::
      (match Admin.getFileResult r with
       | Except.ok _ => [Ev.logInfo contactId Stage.getFile]
       | Except.error _ => [Ev.logError contactId Stage.getFile]))

/-- The then-chain of Admin._removeFile on the DELETE response: ok status
returns the statusText, otherwise throws it. -/
def Admin.removeFileResult (r : HttpResp Unit) : Except PErr String :=
  if r.ok then Except.ok r.statusText
  else Except.error (PErr.deleteError r.statusText)

/-- Admin._removeFile: issues the DELETE for `fileName`, then settles as
`removeFileResult`. -/
def Admin._removeFile (contactId : JsStr) (token : Option String)
    (uri : Option String) (fileName : JsStr) (r : HttpResp Unit) :
    Except PErr String × List Ev :=
  (Admin.removeFileResult r,
    Ev.deleteReq fileName ::
      (match Admin.removeFileResult r with
       | Except.ok _ => [Ev.logInfo contactId Stage.removeFile]
       | Except.error _ => [Ev.logError contactId Stage.removeFile]))

/-- Admin.get: _getToken with this.key and the static token url, then
_getFile with the token and base uri from the token response; its catch
logs and rethrows. -/
def Admin.get (w : World) (contactId fileName : JsStr) :
    Except PErr FilesObj × List Ev :=
  match Admin._getToken contactId Admin.key properties.incontactTokenUrl
      w.tokenResp with
  | (Except.error e, evs) =>
      (Except.error e, evs ++ [Ev.logError contactId Stage.get])
  | (Except.ok data, evs) =>
      match Admin._getFile contactId data.access_token
          data.resource_server_base_uri fileName w.fileResp with
      | (Except.error e, evs2) =>
          (Except.error e, evs ++ evs2 ++ [Ev.logError contactId Stage.get])
      | (Except.ok fo, evs2) => (Except.ok fo, evs ++ evs2)

/-- Admin.remove: _getToken again (fresh token), then _removeFile; its
catch logs and rethrows. -/
def Admin.remove (w : World) (contactId fileName : JsStr) :
    Except PErr String × List Ev :=
  match Admin._getToken contactId Admin.key properties.incontactTokenUrl
      w.tokenResp2 with
  | (Except.error e, evs) =>
      (Except.error e, evs ++ [Ev.logError contactId Stage.remove])
  | (Except.ok data, evs) =>
      match Admin._removeFile contactId data.access_token
          data.resource_server_base_uri fileName w.deleteResp with
      | (Except.error e, evs2) =>
          (Except.error e, evs ++ evs2 ++ [Ev.logError contactId Stage.remove])
      | (Except.ok s, evs2) => (Except.ok s, evs ++ evs2)

/-! sentiment.js : class Sentiment -/

/-- The guard of Sentiment._stt's result check, exactly the conjunction
`json.results && json.results.length > 0 && json.results[0].alternatives
&& json.results[0].alternatives.length > 0 &&
json.results[0].alternatives[0].transcript` (the last conjunct is string
truthiness: non-null and non-empty). -/
def sttTranscript (json : SttJson) : Option String :=
  match json.results with
  | some (r :: _) =>
      match r.alternatives with
      | some (a :: _) =>
          match a.transcript with
          | some t => if t == "" then none else some t
          | none => none
      | some [] => none
      | none => none
  | some [] => none
  | none => none

/-- The then-chain of Sentiment._stt on the recognizer response: non-ok
status throws; a broken result chain throws 'Invalid/missing result
value'; otherwise the transcript is returned. -/
def Sentiment.sttResult (r : HttpResp SttJson) : Except PErr String :=
  if r.ok then
    match sttTranscript r.body with
    | some t => Except.ok t
    | none =>
        Except.error (PErr.transcriptionError "Invalid/missing result value")
  else
    Except.error
      (PErr.transcriptionError ("Response status: " ++ toString r.status))

/-- Sentiment._stt: issues the recognizer request, then settles as
`sttResult`.  `msg` is the Base64 audio (a JS value that the handler
passes through unchecked, hence possibly undefined); it only enters the
request body, never the control flow. -/
def Sentiment._stt (contactId : JsStr) (msg : JsStr)
    (r : HttpResp SttJson) : Except PErr String × List Ev :=
  (Sentiment.sttResult r,
    Ev.sttReq ::
      (match Sentiment.sttResult r with
       | Except.ok _ => [Ev.logInfo contactId Stage.stt]
       | Except.error _ => [Ev.logError contactId Stage.stt]))

/-- The then-chain of Sentiment._analyze on the sentiment response:
non-ok status throws; a body without documentSentiment throws
'Invalid/missing result value'; otherwise the ORIGINAL input text is
paired with the response's documentSentiment. -/
def Sentiment.analyzeResult (text : String) (r : HttpResp SntJson) :
    Except PErr SentimentResult :=
  if r.ok then
    match r.body.documentSentiment with
    | some ds => Except.ok { transcript := text, sentiment := ds }
    | none =>
        Except.error (PErr.analysisError "Invalid/missing result value")
  else
    Except.error
      (PErr.analysisError ("Response status: " ++ toString r.status))

/-- Sentiment._analyze: issues the sentiment request, then settles as
`analyzeResult`. -/
def Sentiment._analyze (contactId : JsStr) (text : String)
    (r : HttpResp SntJson) : Except PErr SentimentResult × List Ev :=
  (Sentiment.analyzeResult text r,
    Ev.sntReq ::
      (match Sentiment.analyzeResult text r with
       | Except.ok _ => [Ev.logInfo contactId Stage.analyze]
       | Except.error _ => [Ev.logError contactId Stage.analyze]))

/-- Sentiment.process: _stt then _analyze on its transcript; its catch
logs and rethrows. -/
def Sentiment.process (w : World) (contactId : JsStr) (audio : JsStr) :
    Except PErr SentimentResult × List Ev :=
  match Sentiment._stt contactId audio w.sttResp with
  | (Except.error e, evs) =>
      (Except.error e, evs ++ [Ev.logError contactId Stage.process])
  | (Except.ok text, evs) =>
      match Sentiment._analyze contactId text w.sntResp with
      | (Except.error e, evs2) =>
          (Except.error e, evs ++ evs2 ++ [Ev.logError contactId Stage.process])
      | (Except.ok res, evs2) => (Except.ok res, evs ++ evs2)

/-! gcstorage.js : class GCStorage -/

/-- dirName = contactId + '/'. -/
def GCStorage.dirName (contactId : JsStr) : String := jsToStr contactId ++ "/"

/-- audioName = dirName + contactId + '.wav'. -/
def GCStorage.audioName (contactId : JsStr) : String :=
  GCStorage.dirName contactId ++ jsToStr contactId ++ ".wav"

/-- transName = dirName + contactId + '.txt'. -/
def GCStorage.transName (contactId : JsStr) : String :=
  GCStorage.dirName contactId ++ jsToStr contactId ++ ".txt"

/-- sntName = dirName + contactId + '.json'. -/
def GCStorage.sntName (contactId : JsStr) : String :=
  GCStorage.dirName contactId ++ jsToStr contactId ++ ".json"

/-- GCStorage._save: pipes the content into the blob's write stream; the
returned promise resolves on the stream's finish event (logging info) and
rejects on its error event (logging error).  `ok` is whether this
stream finishes. -/
def GCStorage._save (contactId : JsStr) (name : String) (ok : Bool) :
    Except PErr Unit × List Ev :=
  if ok then
    (Except.ok (),
      [Ev.saveStart name, Ev.saveFinish name, Ev.logInfo contactId Stage.save])
  else
    (Except.error (PErr.storeError name),
      [Ev.saveStart name, Ev.logError contactId Stage.save])

/-- Outcome of GCStorage.upload: how the returned promise settles, the
events that occur before it settles, and the blob writes that were
initiated but not awaited by the chain (still in flight, or failed
unobserved, when the promise settles). -/
structure UploadRun where
  result : Except PErr Unit
  events : List Ev
  pending : List String
  deriving DecidableEq, Repr

/-- GCStorage.upload: saves the audio blob and awaits it; the two
then-callbacks invoke _save for the transcript and sentiment blobs
WITHOUT returning the inner promise, so those writes are initiated but
the chain resolves without awaiting them; the catch (which can only see
the audio write's rejection) logs and rethrows. -/
def GCStorage.upload (contactId : JsStr) (saveOk : String → Bool) :
    UploadRun :=
  match GCStorage._save contactId (GCStorage.audioName contactId)
      (saveOk (GCStorage.audioName contactId)) with
  | (Except.ok _, evs) =>
      { result := Except.ok ()
        events := evs ++ [Ev.saveStart (GCStorage.transName contactId),
          Ev.saveStart (GCStorage.sntName contactId)]
        pending := [GCStorage.transName contactId,
          GCStorage.sntName contactId] }
  | (Except.error e, evs) =>
      { result := Except.error e
        events := evs ++ [Ev.logError contactId Stage.upload]
        pending := [] }

/-! admin.js : the app.post handler (fulfillment pipeline) -/

/-- Outcome of the post-acknowledgment promise chain of the app.post
handler: how it settles, the events on it in order, and the blob writes
left unawaited when it settles. -/
structure PipeRun where
  result : Except PErr Unit
  events : List Ev
  pending : List String
  deriving DecidableEq, Repr

/-- The handler's chain: admin.get, then sentiment.process on the fetched
file, then storage.upload, then admin.remove.  The remove call is made in
a then-callback that does not return its promise, so the chain settles
ok regardless of the remove outcome (whose own events still occur); the
final catch logs any error of the awaited stages. -/
def pipeline (w : World) (contactId fileName : JsStr) : PipeRun :=
  match Admin.get w contactId fileName with
  | (Except.error e, evs) =>
      { result := Except.error e
        events := evs ++ [Ev.logError contactId Stage.webserver]
        pending := [] }
  | (Except.ok files, evs) =>
      match Sentiment.process w contactId files.file with
      | (Except.error e, evs2) =>
          { result := Except.error e
            events := evs ++ evs2 ++ [Ev.logError contactId Stage.webserver]
            pending := [] }
      | (Except.ok _res, evs2) =>
          match GCStorage.upload contactId w.saveOk with
          | { result := Except.error e, events := uevs, pending := p } =>
              { result := Except.error e
                events := evs ++ evs2 ++ uevs ++
                  [Ev.logError contactId Stage.webserver]
                pending := p }
          | { result := Except.ok _, events := uevs, pending := p } =>
              match Admin.remove w contactId fileName with
              | (_r, evs3) =>
                  { result := Except.ok ()
                    events := evs ++ evs2 ++ uevs ++ evs3
                    pending := p }

/-- The blob names whose writes were initiated, in initiation order. -/
def startedSaves (evs : List Ev) : List String :=
  evs.filterMap fun e =>
    match e with
    | Ev.saveStart n => some n
    | _ => none

/-- The JSON body of an inbound POST; either field may be absent. -/
structure ReqBody where
  contactId : Option String
  fileName : Option String
  deriving DecidableEq, Repr

/-- The handler's synchronous steps, in order. -/
inductive HandlerStep where
  | ack (status : Nat)
  | launch (contactId fileName : JsStr)
  deriving DecidableEq, Repr

structure HandlerRun where
  steps : List HandlerStep
  run : PipeRun
  deriving DecidableEq, Repr

/-- The app.post handler: sends status 200 immediately, reads
body.contactId and body.fileName without any validation, and starts the
pipeline with those raw values. -/
def appPost (w : World) (request : ReqBody) : HandlerRun :=
  let contactId := request.contactId
  let fileName := request.fileName
  { steps := [HandlerStep.ack 200, HandlerStep.launch contactId fileName]
    run := pipeline w contactId fileName }

/-! Concrete responses and worlds used by witnesses and
counterexamples. -/

def tokenOkResp : HttpResp (Option TokenJson) :=
  { ok := true, status := 200, statusText := "OK"
    body := some { access_token := some "tok"
                   resource_server_base_uri := some "https://api.example/" } }

def tokenEmptyResp : HttpResp (Option TokenJson) :=
  { ok := true, status := 200, statusText := "OK"
    body := some { access_token := some ""
                   resource_server_base_uri := some "https://api.example/" } }

def fileOkResp : HttpResp (Option FileJson) :=
  { ok := true, status := 200, statusText := "OK"
    body := some { files := some { file := some "QUJD" } } }

/-- A success response whose body contains a files object that lacks the
`file` field. -/
def fileNoFileResp : HttpResp (Option FileJson) :=
  { ok := true, status := 200, statusText := "OK"
    body := some { files := some { file := none } } }

def sttOkBody : SttJson :=
  { results :=
      some [{ alternatives := some [{ transcript := some "hello world" }] }] }

def sttOkResp : HttpResp SttJson :=
  { ok := true, status := 200, statusText := "OK", body := sttOkBody }

def sttEmptyResp : HttpResp SttJson :=
  { ok := true, status := 200, statusText := "OK"
    body := { results := some [] } }

def sntOkResp : HttpResp SntJson :=
  { ok := true, status := 200, statusText := "OK"
    body := { documentSentiment := some { score := 1, magnitude := 2 } } }

def deleteOkResp : HttpResp Unit :=
  { ok := true, status := 202, statusText := "Accepted", body := () }

/-- A world where every remote call succeeds with a well-formed body and
every blob-write stream finishes. -/
def wAll : World :=
  { tokenResp := tokenOkResp
    fileResp := fileOkResp
    sttResp := sttOkResp
    sntResp := sntOkResp
    saveOk := fun _ => true
    tokenResp2 := tokenOkResp
    deleteResp := deleteOkResp }

/-- A world identical to `wAll` except the recognizer answers with an
empty results list. -/
def wSttFail : World :=
  { tokenResp := tokenOkResp
    fileResp := fileOkResp
    sttResp := sttEmptyResp
    sntResp := sntOkResp
    saveOk := fun _ => true
    tokenResp2 := tokenOkResp
    deleteResp := deleteOkResp }

/-- The ways the recognizer response chain can be broken, enumerated link
by link as in the claim: result list absent or empty, the first result's
alternatives list absent or empty, or the first alternative's transcript
absent or empty. -/
def sttChainBroken (j : SttJson) : Prop :=
  j.results = none ∨ j.results = some [] ∨
    ∃ r rs, j.results = some (r :: rs) ∧
      (r.alternatives = none ∨ r.alternatives = some [] ∨
        ∃ a alts, r.alternatives = some (a :: alts) ∧
          (a.transcript = none ∨ a.transcript = some ""))

/-! Helper lemmas on strings -/

theorem strData_append (a b : String) : (a ++ b).data = a.data ++ b.data := rfl

theorem strExt {a b : String} (h : a.data = b.data) : a = b := by
  cases a
  cases b
  cases h
  rfl

theorem strAppend_left_cancel {a s t : String} (h : a ++ s = a ++ t) :
    s = t := by
  have hd : a.data ++ s.data = a.data ++ t.data := congrArg String.data h
  exact strExt (List.append_cancel_left hd)

theorem blobName_ne (c : JsStr) (s t : String) (h : s ≠ t) :
    GCStorage.dirName c ++ jsToStr c ++ s ≠
      GCStorage.dirName c ++ jsToStr c ++ t := by
  intro he
  exact h (strAppend_left_cancel he)

theorem audioName_ne_transName (c : JsStr) :
    GCStorage.audioName c ≠ GCStorage.transName c :=
  blobName_ne c ".wav" ".txt" (by decide)

theorem audioName_ne_sntName (c : JsStr) :
    GCStorage.audioName c ≠ GCStorage.sntName c :=
  blobName_ne c ".wav" ".json" (by decide)

theorem strAppend_assoc (a b c : String) : a ++ b ++ c = a ++ (b ++ c) :=
  strExt (by simp [strData_append, List.append_assoc])

/-! Helper lemmas on the event traces -/

theorem tokenReq_mem_getToken (c : JsStr) (k u : String)
    (r : HttpResp (Option TokenJson)) :
    Ev.tokenReq (Admin.tokenRequest k u) ∈ (Admin._getToken c k u r).2 :=
  List.mem_cons_self _ _

theorem tokenReq_mem_get (w : World) (c f : JsStr) :
    Ev.tokenReq (Admin.tokenRequest Admin.key properties.incontactTokenUrl) ∈
      (Admin.get w c f).2 := by
  unfold Admin.get
  split
  next e evs heq =>
    have h2 : (Admin._getToken c Admin.key properties.incontactTokenUrl
        w.tokenResp).2 = evs := congrArg Prod.snd heq
    exact List.mem_append_left _ (h2 ▸ tokenReq_mem_getToken c _ _ _)
  next data evs heq =>
    have h2 : (Admin._getToken c Admin.key properties.incontactTokenUrl
        w.tokenResp).2 = evs := congrArg Prod.snd heq
    split
    next e2 evs2 heq2 =>
      exact List.mem_append_left _
        (List.mem_append_left _ (h2 ▸ tokenReq_mem_getToken c _ _ _))
    next fo evs2 heq2 =>
      exact List.mem_append_left _ (h2 ▸ tokenReq_mem_getToken c _ _ _)

theorem tokenReq_mem_pipeline (w : World) (c f : JsStr) :
    Ev.tokenReq (Admin.tokenRequest Admin.key properties.incontactTokenUrl) ∈
      (pipeline w c f).events := by
  unfold pipeline
  split
  next e evs heq =>
    have h2 : (Admin.get w c f).2 = evs := congrArg Prod.snd heq
    exact List.mem_append_left _ (h2 ▸ tokenReq_mem_get w c f)
  next files evs heq =>
    have h2 : (Admin.get w c f).2 = evs := congrArg Prod.snd heq
    split
    next e2 evs2 heq2 =>
      exact List.mem_append_left _
        (List.mem_append_left _ (h2 ▸ tokenReq_mem_get w c f))
    next res evs2 heq2 =>
      split
      next e3 uevs p heq3 =>
        exact List.mem_append_left _ (List.mem_append_left _
          (List.mem_append_left _ (h2 ▸ tokenReq_mem_get w c f)))
      next uevs p heq3 =>
        split
        next r3 evs3 heq4 =>
          exact List.mem_append_left _ (List.mem_append_left _
            (List.mem_append_left _ (h2 ▸ tokenReq_mem_get w c f)))

/-- C10: for any two values of the `key` argument passed to
Admin._getToken, the outbound token request (url, method, body and
Authorization header) is identical, and so is the whole observable
behavior of the call; the Authorization header always uses the
credential precomputed in the Admin constructor from the static
configuration values. -/
theorem C10_getToken_ignores_key_argument (contactId : JsStr)
    (url k1 k2 : String) (r : HttpResp (Option TokenJson)) :
    Admin.tokenRequest k1 url = Admin.tokenRequest k2 url ∧
    Admin._getToken contactId k1 url r = Admin._getToken contactId k2 url r ∧
    (Admin.tokenRequest k1 url).authHeader =
      "basic " ++ btoa (properties.incontactName ++ "@" ++
        properties.incontactVendor ++ ":" ++ properties.incontactKey) :=
  ⟨rfl, rfl, rfl⟩

/-- C9: for every POST request body, including one missing the contactId
or fileName field, the handler acknowledges with status 200 before
launching the pipeline, and launches the pipeline with the raw,
possibly-undefined body values and no validation; the launched pipeline
really runs (it issues the token request) whatever the body was. -/
theorem C9_handler_acks_then_launches_unvalidated (w : World)
    (body : ReqBody) :
    (appPost w body).steps =
      [HandlerStep.ack 200,
        HandlerStep.launch body.contactId body.fileName] ∧
    (appPost w body).run = pipeline w body.contactId body.fileName ∧
    Ev.tokenReq (Admin.tokenRequest Admin.key properties.incontactTokenUrl) ∈
      (appPost w body).run.events :=
  ⟨rfl, rfl, tokenReq_mem_pipeline w body.contactId body.fileName⟩

/-- C2: when the audio blob write succeeds, the promise returned by
GCStorage.upload resolves after the first (audio) blob write has
completed, with the transcript and sentiment writes merely initiated and
not awaited (their completion is not part of the chain, they stay
pending); and when the audio write fails the promise rejects (upload 1
is awaited). -/
theorem C2_upload_awaits_only_first_write (c : JsStr)
    (saveOk : String → Bool) :
    (saveOk (GCStorage.audioName c) = true →
      (GCStorage.upload c saveOk).result = Except.ok () ∧
      Ev.saveFinish (GCStorage.audioName c) ∈ (GCStorage.upload c saveOk).events ∧
      Ev.saveStart (GCStorage.transName c) ∈ (GCStorage.upload c saveOk).events ∧
      Ev.saveStart (GCStorage.sntName c) ∈ (GCStorage.upload c saveOk).events ∧
      Ev.saveFinish (GCStorage.transName c) ∉ (GCStorage.upload c saveOk).events ∧
      Ev.saveFinish (GCStorage.sntName c) ∉ (GCStorage.upload c saveOk).events ∧
      (GCStorage.upload c saveOk).pending =
        [GCStorage.transName c, GCStorage.sntName c]) ∧
    (saveOk (GCStorage.audioName c) = false →
      (GCStorage.upload c saveOk).result =
        Except.error (PErr.storeError (GCStorage.audioName c)) ∧
      Ev.saveStart (GCStorage.transName c) ∉ (GCStorage.upload c saveOk).events ∧
      Ev.saveStart (GCStorage.sntName c) ∉ (GCStorage.upload c saveOk).events) := by
  constructor
  · intro h
    simp [GCStorage.upload, GCStorage._save, h,
      (audioName_ne_transName c).symm, (audioName_ne_sntName c).symm]
  · intro h
    simp [GCStorage.upload, GCStorage._save, h,
      (audioName_ne_transName c).symm, (audioName_ne_sntName c).symm]

theorem C2_witness :
    (GCStorage.upload (some "abc123") (fun _ => true)).result = Except.ok () ∧
    Ev.saveFinish (GCStorage.audioName (some "abc123")) ∈
      (GCStorage.upload (some "abc123") (fun _ => true)).events ∧
    Ev.saveStart (GCStorage.transName (some "abc123")) ∈
      (GCStorage.upload (some "abc123") (fun _ => true)).events ∧
    Ev.saveStart (GCStorage.sntName (some "abc123")) ∈
      (GCStorage.upload (some "abc123") (fun _ => true)).events ∧
    Ev.saveFinish (GCStorage.transName (some "abc123")) ∉
      (GCStorage.upload (some "abc123") (fun _ => true)).events ∧
    Ev.saveFinish (GCStorage.sntName (some "abc123")) ∉
      (GCStorage.upload (some "abc123") (fun _ => true)).events ∧
    (GCStorage.upload (some "abc123") (fun _ => true)).pending =
      [GCStorage.transName (some "abc123"), GCStorage.sntName (some "abc123")] :=
  (C2_upload_awaits_only_first_write (some "abc123") (fun _ => true)).1 rfl

/-- C8: for every contactId, a successful persist initiates exactly three
blob writes, named contactId/contactId.wav, contactId/contactId.txt and
contactId/contactId.json, in that order. -/
theorem C8_persist_writes_three_named_blobs (c : String)
    (saveOk : String → Bool)
    (h : saveOk (GCStorage.audioName (some c)) = true) :
    startedSaves (GCStorage.upload (some c) saveOk).events =
      [c ++ "/" ++ c ++ ".wav", c ++ "/" ++ c ++ ".txt",
        c ++ "/" ++ c ++ ".json"] := by
  have h2 : saveOk (c ++ "/" ++ c ++ ".wav") = true := by
    simpa [GCStorage.audioName, GCStorage.dirName, jsToStr] using h
  simp [GCStorage.upload, GCStorage._save, h2, startedSaves,
    GCStorage.audioName, GCStorage.transName, GCStorage.sntName,
    GCStorage.dirName, jsToStr]

theorem C8_witness :
    ((fun _ => true) : String → Bool) (GCStorage.audioName (some "abc123")) =
      true ∧
    startedSaves (GCStorage.upload (some "abc123") (fun _ => true)).events =
      ["abc123" ++ "/" ++ "abc123" ++ ".wav",
        "abc123" ++ "/" ++ "abc123" ++ ".txt",
        "abc123" ++ "/" ++ "abc123" ++ ".json"] :=
  ⟨rfl, C8_persist_writes_three_named_blobs "abc123" (fun _ => true) rfl⟩

/-- C3 counterexample: a success response whose JSON body contains a
files object (one lacking the `file` field) makes Admin._getFile fail
instead of returning that files object unchanged, because the success
branch dereferences json.files.file.length while logging and that
throws a TypeError which the catch rethrows. -/
theorem C3_counterexample_files_without_file :
    fileNoFileResp.ok = true ∧
    (∃ j fo, fileNoFileResp.body = some j ∧ j.files = some fo) ∧
    (Admin._getFile (some "abc123") (some "tok") (some "https://api.example/")
        (some "/rec/abc123.wav") fileNoFileResp).1 =
      Except.error (PErr.fetchError
        "TypeError: Cannot read property length of undefined") := by
  refine ⟨rfl, ⟨_, _, rfl, rfl⟩, ?_⟩
  simp [Admin._getFile, Admin.getFileResult, fileNoFileResp]

/-- C3 (amended): for every file-fetch response with a success HTTP
status whose JSON body contains a files object whose `file` field is
present, Admin._getFile returns that files object unchanged; a files
object lacking `file` makes the call fail (the logging dereference
throws) rather than return the object; and if the files object is
absent or the body is null, it fails with the FetchError 'Missing files
object'. -/
theorem C3_getFile_contract (contactId : JsStr)
    (token uri : Option String) (fileName : JsStr)
    (resp : HttpResp (Option FileJson)) (h : resp.ok = true) :
    (∀ j fo s, resp.body = some j → j.files = some fo → fo.file = some s →
      (Admin._getFile contactId token uri fileName resp).1 = Except.ok fo) ∧
    (∀ j fo, resp.body = some j → j.files = some fo → fo.file = none →
      (Admin._getFile contactId token uri fileName resp).1 =
        Except.error (PErr.fetchError
          "TypeError: Cannot read property length of undefined")) ∧
    (∀ j, resp.body = some j → j.files = none →
      (Admin._getFile contactId token uri fileName resp).1 =
        Except.error (PErr.fetchError "Missing files object")) ∧
    (resp.body = none →
      (Admin._getFile contactId token uri fileName resp).1 =
        Except.error (PErr.fetchError "Missing files object")) := by
  refine ⟨?_, ?_, ?_, ?_⟩
  · intro j fo s hb hf hfile
    simp [Admin._getFile, Admin.getFileResult, h, hb, hf, hfile]
  · intro j fo hb hf hfile
    simp [Admin._getFile, Admin.getFileResult, h, hb, hf, hfile]
  · intro j hb hf
    simp [Admin._getFile, Admin.getFileResult, h, hb, hf]
  · intro hb
    simp [Admin._getFile, Admin.getFileResult, h, hb]

theorem C3_witness :
    (Admin._getFile (some "abc123") (some "tok") (some "https://api.example/")
        (some "/rec/abc123.wav") fileOkResp).1 =
      Except.ok { file := some "QUJD" } :=
  (C3_getFile_contract (some "abc123") (some "tok")
      (some "https://api.example/") (some "/rec/abc123.wav") fileOkResp
      rfl).1
    { files := some { file := some "QUJD" } } { file := some "QUJD" }
    "QUJD" rfl rfl rfl

/-- C4 counterexample: a success response whose body contains both the
access_token field (as the empty string) and the
resource_server_base_uri field makes Admin._getToken fail with an
AuthError instead of returning those values, because the source tests JS
truthiness of the fields, not mere presence. -/
theorem C4_counterexample_empty_access_token :
    tokenEmptyResp.ok = true ∧
    (∃ j, tokenEmptyResp.body = some j ∧ j.access_token = some "" ∧
      j.resource_server_base_uri = some "https://api.example/") ∧
    (Admin._getToken (some "abc123") Admin.key properties.incontactTokenUrl
        tokenEmptyResp).1 =
      Except.error (PErr.authError "Missing token and/or uri") := by
  refine ⟨rfl, ⟨_, rfl, rfl, rfl⟩, ?_⟩
  simp [Admin._getToken, Admin.getTokenResult, tokenEmptyResp, truthy]

/-- C4 (amended): for every token-endpoint response with a success HTTP
status whose body contains both access_token and
resource_server_base_uri as non-empty strings, Admin._getToken returns
the body json carrying exactly those two values; if either field is
missing or empty (JS-falsy), or the body is null, or the HTTP status is
non-success, it fails with an AuthError. -/
theorem C4_getToken_contract (contactId : JsStr) (key url : String)
    (resp : HttpResp (Option TokenJson)) :
    (∀ j a u, resp.ok = true → resp.body = some j →
      j.access_token = some a → a ≠ "" →
      j.resource_server_base_uri = some u → u ≠ "" →
      (Admin._getToken contactId key url resp).1 = Except.ok j) ∧
    (∀ j, resp.ok = true → resp.body = some j →
      (truthy j.access_token = false ∨
        truthy j.resource_server_base_uri = false) →
      (Admin._getToken contactId key url resp).1 =
        Except.error (PErr.authError "Missing token and/or uri")) ∧
    (resp.ok = true → resp.body = none →
      (Admin._getToken contactId key url resp).1 =
        Except.error (PErr.authError "Missing token and/or uri")) ∧
    (resp.ok = false →
      (Admin._getToken contactId key url resp).1 =
        Except.error
          (PErr.authError ("Response status: " ++ toString resp.status))) := by
  refine ⟨?_, ?_, ?_, ?_⟩
  · intro j a u hok hb ha hane hu hune
    simp [Admin._getToken, Admin.getTokenResult, hok, hb, ha, hu, truthy,
      hane, hune]
  · intro j hok hb hfalsy
    rcases hfalsy with hf | hf <;>
      simp [Admin._getToken, Admin.getTokenResult, hok, hb, hf]
  · intro hok hb
    simp [Admin._getToken, Admin.getTokenResult, hok, hb]
  · intro hok
    simp [Admin._getToken, Admin.getTokenResult, hok]

theorem C4_witness :
    (Admin._getToken (some "abc123") Admin.key properties.incontactTokenUrl
        tokenOkResp).1 =
      Except.ok { access_token := some "tok"
                  resource_server_base_uri := some "https://api.example/" } :=
  (C4_getToken_contract (some "abc123") Admin.key
      properties.incontactTokenUrl tokenOkResp).1
    { access_token := some "tok"
      resource_server_base_uri := some "https://api.example/" }
    "tok" "https://api.example/" rfl rfl rfl (by decide) rfl (by decide)

/-- C5: for every recognizer response with a success HTTP status where
results[0].alternatives[0].transcript exists and is non-empty,
Sentiment._stt returns that transcript; for every response where any
link of the chain is broken, it fails with a TranscriptionError rather
than returning a partial or empty result. -/
theorem C5_stt_contract (contactId : JsStr) (msg : JsStr)
    (resp : HttpResp SttJson) (h : resp.ok = true) :
    (∀ r rs a alts t, resp.body.results = some (r :: rs) →
      r.alternatives = some (a :: alts) → a.transcript = some t →
      t ≠ "" →
      (Sentiment._stt contactId msg resp).1 = Except.ok t) ∧
    (sttChainBroken resp.body →
      (Sentiment._stt contactId msg resp).1 =
        Except.error
          (PErr.transcriptionError "Invalid/missing result value")) := by
  constructor
  · intro r rs a alts t h1 h2 h3 h4
    simp [Sentiment._stt, Sentiment.sttResult, sttTranscript, h, h1, h2,
      h3, h4]
  · intro hb
    rcases hb with h1 | h1 | ⟨r, rs, h1, hrest⟩
    · simp [Sentiment._stt, Sentiment.sttResult, sttTranscript, h, h1]
    · simp [Sentiment._stt, Sentiment.sttResult, sttTranscript, h, h1]
    · rcases hrest with h2 | h2 | ⟨a, alts, h2, h3⟩
      · simp [Sentiment._stt, Sentiment.sttResult, sttTranscript, h, h1, h2]
      · simp [Sentiment._stt, Sentiment.sttResult, sttTranscript, h, h1, h2]
      · rcases h3 with h3 | h3 <;>
          simp [Sentiment._stt, Sentiment.sttResult, sttTranscript, h, h1,
            h2, h3]

theorem C5_witness :
    (Sentiment._stt (some "abc123") (some "QUJD") sttOkResp).1 =
      Except.ok "hello world" :=
  (C5_stt_contract (some "abc123") (some "QUJD") sttOkResp rfl).1
    { alternatives := some [{ transcript := some "hello world" }] } []
    { transcript := some "hello world" } [] "hello world" rfl rfl rfl
    (by decide)

/-- C6: for every input text and every sentiment response with a success
HTTP status, when documentSentiment is present Sentiment._analyze
returns a result whose transcript is identical to the original input
text paired with that documentSentiment; when documentSentiment is
absent it fails with an AnalysisError. -/
theorem C6_analyze_preserves_input_text (contactId : JsStr) (text : String)
    (resp : HttpResp SntJson) (h : resp.ok = true) :
    (∀ ds, resp.body.documentSentiment = some ds →
      (Sentiment._analyze contactId text resp).1 =
        Except.ok { transcript := text, sentiment := ds }) ∧
    (resp.body.documentSentiment = none →
      (Sentiment._analyze contactId text resp).1 =
        Except.error (PErr.analysisError "Invalid/missing result value")) := by
  constructor
  · intro ds hds
    simp [Sentiment._analyze, Sentiment.analyzeResult, h, hds]
  · intro hds
    simp [Sentiment._analyze, Sentiment.analyzeResult, h, hds]

theorem C6_witness :
    (Sentiment._analyze (some "abc123") "hello world" sntOkResp).1 =
      Except.ok { transcript := "hello world"
                  sentiment := { score := 1, magnitude := 2 } } :=
  (C6_analyze_preserves_input_text (some "abc123") "hello world" sntOkResp
      rfl).1 { score := 1, magnitude := 2 } rfl

theorem getToken_events_cases (c : JsStr) (k u : String)
    (r : HttpResp (Option TokenJson)) :
    ∀ e ∈ (Admin._getToken c k u r).2,
      e = Ev.tokenReq (Admin.tokenRequest k u) ∨
      e = Ev.logInfo c Stage.getToken ∨ e = Ev.logError c Stage.getToken := by
  intro e he
  unfold Admin._getToken at he
  cases hr : Admin.getTokenResult r <;> rw [hr] at he <;> simp at he <;>
    tauto

theorem getFile_events_cases (c : JsStr) (token uri : Option String)
    (f : JsStr) (r : HttpResp (Option FileJson)) :
    ∀ e ∈ (Admin._getFile c token uri f r).2,
      e = Ev.fileReq f ∨
      e = Ev.logInfo c Stage.getFile ∨ e = Ev.logError c Stage.getFile := by
  intro e he
  unfold Admin._getFile at he
  cases hr : Admin.getFileResult r <;> rw [hr] at he <;> simp at he <;>
    tauto

theorem stt_events_cases (c : JsStr) (msg : JsStr) (r : HttpResp SttJson) :
    ∀ e ∈ (Sentiment._stt c msg r).2,
      e = Ev.sttReq ∨
      e = Ev.logInfo c Stage.stt ∨ e = Ev.logError c Stage.stt := by
  intro e he
  unfold Sentiment._stt at he
  cases hr : Sentiment.sttResult r <;> rw [hr] at he <;> simp at he <;>
    tauto

theorem analyze_events_cases (c : JsStr) (text : String)
    (r : HttpResp SntJson) :
    ∀ e ∈ (Sentiment._analyze c text r).2,
      e = Ev.sntReq ∨
      e = Ev.logInfo c Stage.analyze ∨ e = Ev.logError c Stage.analyze := by
  intro e he
  unfold Sentiment._analyze at he
  cases hr : Sentiment.analyzeResult text r <;> rw [hr] at he <;>
    simp at he <;> tauto

/-- Every event of Admin.get is a token request, the file request, or a
log entry tagged with the job's contactId. -/
theorem get_events_cases (w : World) (c f : JsStr) :
    ∀ e ∈ (Admin.get w c f).2,
      (∃ req, e = Ev.tokenReq req) ∨ e = Ev.fileReq f ∨
      (∃ st, e = Ev.logInfo c st) ∨ (∃ st, e = Ev.logError c st) := by
  intro e he
  unfold Admin.get at he
  split at he
  next e1 evs heq =>
    have hevs : (Admin._getToken c Admin.key properties.incontactTokenUrl
        w.tokenResp).2 = evs := congrArg Prod.snd heq
    rcases List.mem_append.mp he with hm | hm
    · have hm2 : e ∈ (Admin._getToken c Admin.key
          properties.incontactTokenUrl w.tokenResp).2 := by
        rw [hevs]; exact hm
      rcases getToken_events_cases c _ _ _ e hm2 with h | h | h
      · exact Or.inl ⟨_, h⟩
      · exact Or.inr (Or.inr (Or.inl ⟨_, h⟩))
      · exact Or.inr (Or.inr (Or.inr ⟨_, h⟩))
    · simp at hm
      exact Or.inr (Or.inr (Or.inr ⟨_, hm⟩))
  next data evs heq =>
    have hevs : (Admin._getToken c Admin.key properties.incontactTokenUrl
        w.tokenResp).2 = evs := congrArg Prod.snd heq
    split at he
    next e2 evs2 heq2 =>
      have hevs2 : (Admin._getFile c data.access_token
          data.resource_server_base_uri f w.fileResp).2 = evs2 :=
        congrArg Prod.snd heq2
      rcases List.mem_append.mp he with hm | hm
      · rcases List.mem_append.mp hm with hm1 | hm1
        · have hm2 : e ∈ (Admin._getToken c Admin.key
              properties.incontactTokenUrl w.tokenResp).2 := by
            rw [hevs]; exact hm1
          rcases getToken_events_cases c _ _ _ e hm2 with h | h | h
          · exact Or.inl ⟨_, h⟩
          · exact Or.inr (Or.inr (Or.inl ⟨_, h⟩))
          · exact Or.inr (Or.inr (Or.inr ⟨_, h⟩))
        · have hm2 : e ∈ (Admin._getFile c data.access_token
              data.resource_server_base_uri f w.fileResp).2 := by
            rw [hevs2]; exact hm1
          rcases getFile_events_cases c _ _ f _ e hm2 with h | h | h
          · exact Or.inr (Or.inl h)
          · exact Or.inr (Or.inr (Or.inl ⟨_, h⟩))
          · exact Or.inr (Or.inr (Or.inr ⟨_, h⟩))
      · simp at hm
        exact Or.inr (Or.inr (Or.inr ⟨_, hm⟩))
    next fo evs2 heq2 =>
      have hevs2 : (Admin._getFile c data.access_token
          data.resource_server_base_uri f w.fileResp).2 = evs2 :=
        congrArg Prod.snd heq2
      rcases List.mem_append.mp he with hm | hm
      · have hm2 : e ∈ (Admin._getToken c Admin.key
            properties.incontactTokenUrl w.tokenResp).2 := by
          rw [hevs]; exact hm
        rcases getToken_events_cases c _ _ _ e hm2 with h | h | h
        · exact Or.inl ⟨_, h⟩
        · exact Or.inr (Or.inr (Or.inl ⟨_, h⟩))
        · exact Or.inr (Or.inr (Or.inr ⟨_, h⟩))
      · have hm2 : e ∈ (Admin._getFile c data.access_token
            data.resource_server_base_uri f w.fileResp).2 := by
          rw [hevs2]; exact hm
        rcases getFile_events_cases c _ _ f _ e hm2 with h | h | h
        · exact Or.inr (Or.inl h)
        · exact Or.inr (Or.inr (Or.inl ⟨_, h⟩))
        · exact Or.inr (Or.inr (Or.inr ⟨_, h⟩))

/-- Every event of Sentiment.process is the recognizer request, the
sentiment request, or a log entry tagged with the job's contactId. -/
theorem process_events_cases (w : World) (c : JsStr) (audio : JsStr) :
    ∀ e ∈ (Sentiment.process w c audio).2,
      e = Ev.sttReq ∨ e = Ev.sntReq ∨
      (∃ st, e = Ev.logInfo c st) ∨ (∃ st, e = Ev.logError c st) := by
  intro e he
  unfold Sentiment.process at he
  split at he
  next e1 evs heq =>
    have hevs : (Sentiment._stt c audio w.sttResp).2 = evs :=
      congrArg Prod.snd heq
    rcases List.mem_append.mp he with hm | hm
    · have hm2 : e ∈ (Sentiment._stt c audio w.sttResp).2 := by
        rw [hevs]; exact hm
      rcases stt_events_cases c audio _ e hm2 with h | h | h
      · exact Or.inl h
      · exact Or.inr (Or.inr (Or.inl ⟨_, h⟩))
      · exact Or.inr (Or.inr (Or.inr ⟨_, h⟩))
    · simp at hm
      exact Or.inr (Or.inr (Or.inr ⟨_, hm⟩))
  next text evs heq =>
    have hevs : (Sentiment._stt c audio w.sttResp).2 = evs :=
      congrArg Prod.snd heq
    split at he
    next e2 evs2 heq2 =>
      have hevs2 : (Sentiment._analyze c text w.sntResp).2 = evs2 :=
        congrArg Prod.snd heq2
      rcases List.mem_append.mp he with hm | hm
      · rcases List.mem_append.mp hm with hm1 | hm1
        · have hm2 : e ∈ (Sentiment._stt c audio w.sttResp).2 := by
            rw [hevs]; exact hm1
          rcases stt_events_cases c audio _ e hm2 with h | h | h
          · exact Or.inl h
          · exact Or.inr (Or.inr (Or.inl ⟨_, h⟩))
          · exact Or.inr (Or.inr (Or.inr ⟨_, h⟩))
        · have hm2 : e ∈ (Sentiment._analyze c text w.sntResp).2 := by
            rw [hevs2]; exact hm1
          rcases analyze_events_cases c text _ e hm2 with h | h | h
          · exact Or.inr (Or.inl h)
          · exact Or.inr (Or.inr (Or.inl ⟨_, h⟩))
          · exact Or.inr (Or.inr (Or.inr ⟨_, h⟩))
      · simp at hm
        exact Or.inr (Or.inr (Or.inr ⟨_, hm⟩))
    next res evs2 heq2 =>
      have hevs2 : (Sentiment._analyze c text w.sntResp).2 = evs2 :=
        congrArg Prod.snd heq2
      rcases List.mem_append.mp he with hm | hm
      · have hm2 : e ∈ (Sentiment._stt c audio w.sttResp).2 := by
          rw [hevs]; exact hm
        rcases stt_events_cases c audio _ e hm2 with h | h | h
        · exact Or.inl h
        · exact Or.inr (Or.inr (Or.inl ⟨_, h⟩))
        · exact Or.inr (Or.inr (Or.inr ⟨_, h⟩))
      · have hm2 : e ∈ (Sentiment._analyze c text w.sntResp).2 := by
          rw [hevs2]; exact hm
        rcases analyze_events_cases c text _ e hm2 with h | h | h
        · exact Or.inr (Or.inl h)
        · exact Or.inr (Or.inr (Or.inl ⟨_, h⟩))
        · exact Or.inr (Or.inr (Or.inr ⟨_, h⟩))

/-- Every event of GCStorage.upload is a blob-write start or finish or a
log entry tagged with the job's contactId. -/
theorem upload_events_cases (c : JsStr) (saveOk : String → Bool) :
    ∀ e ∈ (GCStorage.upload c saveOk).events,
      (∃ n, e = Ev.saveStart n) ∨ (∃ n, e = Ev.saveFinish n) ∨
      (∃ st, e = Ev.logInfo c st) ∨ (∃ st, e = Ev.logError c st) := by
  intro e he
  cases hc : saveOk (GCStorage.audioName c)
  · simp [GCStorage.upload, GCStorage._save, hc] at he
    rcases he with h | h | h
    · exact Or.inl ⟨_, h⟩
    · exact Or.inr (Or.inr (Or.inr ⟨_, h⟩))
    · exact Or.inr (Or.inr (Or.inr ⟨_, h⟩))
  · simp [GCStorage.upload, GCStorage._save, hc] at he
    rcases he with h | h | h | h | h
    · exact Or.inl ⟨_, h⟩
    · exact Or.inr (Or.inl ⟨_, h⟩)
    · exact Or.inr (Or.inr (Or.inl ⟨_, h⟩))
    · exact Or.inl ⟨_, h⟩
    · exact Or.inl ⟨_, h⟩

theorem sttReq_not_mem_get (w : World) (c f : JsStr) :
    Ev.sttReq ∉ (Admin.get w c f).2 := by
  intro hm
  rcases get_events_cases w c f _ hm with ⟨req, h⟩ | h | ⟨st, h⟩ | ⟨st, h⟩ <;>
    simp at h

theorem sntReq_not_mem_get (w : World) (c f : JsStr) :
    Ev.sntReq ∉ (Admin.get w c f).2 := by
  intro hm
  rcases get_events_cases w c f _ hm with ⟨req, h⟩ | h | ⟨st, h⟩ | ⟨st, h⟩ <;>
    simp at h

theorem saveStart_not_mem_get (w : World) (c f : JsStr) (n : String) :
    Ev.saveStart n ∉ (Admin.get w c f).2 := by
  intro hm
  rcases get_events_cases w c f _ hm with ⟨req, h⟩ | h | ⟨st, h⟩ | ⟨st, h⟩ <;>
    simp at h

theorem deleteReq_not_mem_get (w : World) (c f : JsStr) (f2 : JsStr) :
    Ev.deleteReq f2 ∉ (Admin.get w c f).2 := by
  intro hm
  rcases get_events_cases w c f _ hm with ⟨req, h⟩ | h | ⟨st, h⟩ | ⟨st, h⟩ <;>
    simp at h

theorem saveStart_not_mem_process (w : World) (c : JsStr) (audio : JsStr)
    (n : String) : Ev.saveStart n ∉ (Sentiment.process w c audio).2 := by
  intro hm
  rcases process_events_cases w c audio _ hm with
    h | h | ⟨st, h⟩ | ⟨st, h⟩ <;> simp at h

theorem deleteReq_not_mem_process (w : World) (c : JsStr) (audio : JsStr)
    (f2 : JsStr) : Ev.deleteReq f2 ∉ (Sentiment.process w c audio).2 := by
  intro hm
  rcases process_events_cases w c audio _ hm with
    h | h | ⟨st, h⟩ | ⟨st, h⟩ <;> simp at h

theorem deleteReq_not_mem_upload (c : JsStr) (saveOk : String → Bool)
    (f2 : JsStr) : Ev.deleteReq f2 ∉ (GCStorage.upload c saveOk).events := by
  intro hm
  rcases upload_events_cases c saveOk _ hm with
    ⟨n, h⟩ | ⟨n, h⟩ | ⟨st, h⟩ | ⟨st, h⟩ <;> simp at h

/-- C7: for every job whose earlier stages succeed and whose recognizer
response is a success status with an empty results list, the pipeline
fails with the TranscriptionError, logs it tagged with the job's
contactId, performs zero storage writes (none started, none pending),
never issues the delete call, and never reaches the sentiment stage;
and, in general, any stage's thrown error terminates all remaining
stages of the job: a token or file-fetch failure suppresses the
recognizer, sentiment, storage and delete operations, a transcription
or analysis failure suppresses storage and delete, and a storage
failure suppresses delete. -/
theorem C7_stage_error_terminates_remaining_stages (w : World)
    (contactId fileName : JsStr) :
    (∀ j fo, Admin.getTokenResult w.tokenResp = Except.ok j →
      Admin.getFileResult w.fileResp = Except.ok fo →
      w.sttResp.ok = true → w.sttResp.body = { results := some [] } →
      (pipeline w contactId fileName).result =
        Except.error (PErr.transcriptionError "Invalid/missing result value") ∧
      Ev.logError contactId Stage.stt ∈
        (pipeline w contactId fileName).events ∧
      (∀ n, Ev.saveStart n ∉ (pipeline w contactId fileName).events) ∧
      (pipeline w contactId fileName).pending = [] ∧
      (∀ f2, Ev.deleteReq f2 ∉ (pipeline w contactId fileName).events) ∧
      Ev.sntReq ∉ (pipeline w contactId fileName).events) ∧
    (∀ e, (Admin.get w contactId fileName).1 = Except.error e →
      (pipeline w contactId fileName).result = Except.error e ∧
      Ev.sttReq ∉ (pipeline w contactId fileName).events ∧
      Ev.sntReq ∉ (pipeline w contactId fileName).events ∧
      (∀ n, Ev.saveStart n ∉ (pipeline w contactId fileName).events) ∧
      (∀ f2, Ev.deleteReq f2 ∉ (pipeline w contactId fileName).events) ∧
      (pipeline w contactId fileName).pending = []) ∧
    (∀ fo e, (Admin.get w contactId fileName).1 = Except.ok fo →
      (Sentiment.process w contactId fo.file).1 = Except.error e →
      (pipeline w contactId fileName).result = Except.error e ∧
      (∀ n, Ev.saveStart n ∉ (pipeline w contactId fileName).events) ∧
      (∀ f2, Ev.deleteReq f2 ∉ (pipeline w contactId fileName).events) ∧
      (pipeline w contactId fileName).pending = []) ∧
    (∀ fo res e, (Admin.get w contactId fileName).1 = Except.ok fo →
      (Sentiment.process w contactId fo.file).1 = Except.ok res →
      (GCStorage.upload contactId w.saveOk).result = Except.error e →
      (pipeline w contactId fileName).result = Except.error e ∧
      (∀ f2, Ev.deleteReq f2 ∉ (pipeline w contactId fileName).events)) := by
  refine ⟨?_, ?_, ?_, ?_⟩
  · intro j fo h1 h2 h3 h4
    have hstt : Sentiment.sttResult w.sttResp =
        Except.error
          (PErr.transcriptionError "Invalid/missing result value") := by
      simp [Sentiment.sttResult, sttTranscript, h3, h4]
    simp [pipeline, Admin.get, Admin._getToken, Admin._getFile,
      Sentiment.process, Sentiment._stt, h1, h2, hstt]
  · intro e hE
    rcases hg : Admin.get w contactId fileName with ⟨r, gevs⟩
    rw [hg] at hE
    obtain rfl : r = Except.error e := hE
    have hgev : (Admin.get w contactId fileName).2 = gevs :=
      congrArg Prod.snd hg
    have hp : pipeline w contactId fileName =
        { result := Except.error e
          events := gevs ++ [Ev.logError contactId Stage.webserver]
          pending := [] } := by
      simp [pipeline, hg]
    rw [hp]
    refine ⟨rfl, ?_, ?_, ?_, ?_, rfl⟩
    · intro hm
      rcases List.mem_append.mp hm with hm1 | hm1
      · have hm2 : Ev.sttReq ∈ (Admin.get w contactId fileName).2 := by
          rw [hgev]; exact hm1
        exact sttReq_not_mem_get w contactId fileName hm2
      · simp at hm1
    · intro hm
      rcases List.mem_append.mp hm with hm1 | hm1
      · have hm2 : Ev.sntReq ∈ (Admin.get w contactId fileName).2 := by
          rw [hgev]; exact hm1
        exact sntReq_not_mem_get w contactId fileName hm2
      · simp at hm1
    · intro n hm
      rcases List.mem_append.mp hm with hm1 | hm1
      · have hm2 : Ev.saveStart n ∈ (Admin.get w contactId fileName).2 := by
          rw [hgev]; exact hm1
        exact saveStart_not_mem_get w contactId fileName n hm2
      · simp at hm1
    · intro f2 hm
      rcases List.mem_append.mp hm with hm1 | hm1
      · have hm2 : Ev.deleteReq f2 ∈ (Admin.get w contactId fileName).2 := by
          rw [hgev]; exact hm1
        exact deleteReq_not_mem_get w contactId fileName f2 hm2
      · simp at hm1
  · intro fo e hG hP
    rcases hg : Admin.get w contactId fileName with ⟨r, gevs⟩
    rw [hg] at hG
    obtain rfl : r = Except.ok fo := hG
    rcases hpr : Sentiment.process w contactId fo.file with ⟨rp, pevs⟩
    rw [hpr] at hP
    obtain rfl : rp = Except.error e := hP
    have hgev : (Admin.get w contactId fileName).2 = gevs :=
      congrArg Prod.snd hg
    have hpev : (Sentiment.process w contactId fo.file).2 = pevs :=
      congrArg Prod.snd hpr
    have hp : pipeline w contactId fileName =
        { result := Except.error e
          events := gevs ++ pevs ++ [Ev.logError contactId Stage.webserver]
          pending := [] } := by
      simp [pipeline, hg, hpr]
    rw [hp]
    refine ⟨rfl, ?_, ?_, rfl⟩
    · intro n hm
      rcases List.mem_append.mp hm with hm1 | hm1
      · rcases List.mem_append.mp hm1 with hm2 | hm2
        · have hm3 : Ev.saveStart n ∈ (Admin.get w contactId fileName).2 := by
            rw [hgev]; exact hm2
          exact saveStart_not_mem_get w contactId fileName n hm3
        · have hm3 : Ev.saveStart n ∈
              (Sentiment.process w contactId fo.file).2 := by
            rw [hpev]; exact hm2
          exact saveStart_not_mem_process w contactId fo.file n hm3
      · simp at hm1
    · intro f2 hm
      rcases List.mem_append.mp hm with hm1 | hm1
      · rcases List.mem_append.mp hm1 with hm2 | hm2
        · have hm3 : Ev.deleteReq f2 ∈ (Admin.get w contactId fileName).2 := by
            rw [hgev]; exact hm2
          exact deleteReq_not_mem_get w contactId fileName f2 hm3
        · have hm3 : Ev.deleteReq f2 ∈
              (Sentiment.process w contactId fo.file).2 := by
            rw [hpev]; exact hm2
          exact deleteReq_not_mem_process w contactId fo.file f2 hm3
      · simp at hm1
  · intro fo res e hG hP hU
    rcases hg : Admin.get w contactId fileName with ⟨r, gevs⟩
    rw [hg] at hG
    obtain rfl : r = Except.ok fo := hG
    rcases hpr : Sentiment.process w contactId fo.file with ⟨rp, pevs⟩
    rw [hpr] at hP
    obtain rfl : rp = Except.ok res := hP
    rcases hu : GCStorage.upload contactId w.saveOk with ⟨ru, uevs, up⟩
    rw [hu] at hU
    obtain rfl : ru = Except.error e := hU
    have hgev : (Admin.get w contactId fileName).2 = gevs :=
      congrArg Prod.snd hg
    have hpev : (Sentiment.process w contactId fo.file).2 = pevs :=
      congrArg Prod.snd hpr
    have huev : (GCStorage.upload contactId w.saveOk).events = uevs :=
      congrArg UploadRun.events hu
    have hp : pipeline w contactId fileName =
        { result := Except.error e
          events := gevs ++ pevs ++ uevs ++
            [Ev.logError contactId Stage.webserver]
          pending := up } := by
      simp [pipeline, hg, hpr, hu]
    rw [hp]
    refine ⟨rfl, ?_⟩
    intro f2 hm
    rcases List.mem_append.mp hm with hm1 | hm1
    · rcases List.mem_append.mp hm1 with hm2 | hm2
      · rcases List.mem_append.mp hm2 with hm3 | hm3
        · have hm4 : Ev.deleteReq f2 ∈ (Admin.get w contactId fileName).2 := by
            rw [hgev]; exact hm3
          exact deleteReq_not_mem_get w contactId fileName f2 hm4
        · have hm4 : Ev.deleteReq f2 ∈
              (Sentiment.process w contactId fo.file).2 := by
            rw [hpev]; exact hm3
          exact deleteReq_not_mem_process w contactId fo.file f2 hm4
      · have hm4 : Ev.deleteReq f2 ∈
            (GCStorage.upload contactId w.saveOk).events := by
          rw [huev]; exact hm2
        exact deleteReq_not_mem_upload contactId w.saveOk f2 hm4
    · simp at hm1

theorem C7_witness :
    (pipeline wSttFail (some "abc123") (some "/rec/abc123.wav")).result =
      Except.error (PErr.transcriptionError "Invalid/missing result value") ∧
    Ev.logError (some "abc123") Stage.stt ∈
      (pipeline wSttFail (some "abc123") (some "/rec/abc123.wav")).events ∧
    (∀ n, Ev.saveStart n ∉
      (pipeline wSttFail (some "abc123") (some "/rec/abc123.wav")).events) ∧
    (pipeline wSttFail (some "abc123") (some "/rec/abc123.wav")).pending =
      [] ∧
    (∀ f2, Ev.deleteReq f2 ∉
      (pipeline wSttFail (some "abc123") (some "/rec/abc123.wav")).events) ∧
    Ev.sntReq ∉
      (pipeline wSttFail (some "abc123") (some "/rec/abc123.wav")).events :=
  (C7_stage_error_terminates_remaining_stages wSttFail (some "abc123")
      (some "/rec/abc123.wav")).1
    { access_token := some "tok"
      resource_server_base_uri := some "https://api.example/" }
    { file := some "QUJD" } (by decide) (by decide) rfl rfl

/-- C1: the claim that deletion is only attempted after the persist
operation (all three artifact writes) has completed is violated by the
code.  Evaluated at a job where every remote call succeeds, the chain
issues the delete request for the job's fileName, yet only the audio
blob write has completed on the chain: the transcript and sentiment
writes were started but left pending (unawaited) when the delete was
issued, because upload's then-callbacks do not return the inner save
promises. -/
theorem C1_delete_issued_before_persist_completes :
    (pipeline wAll (some "abc123") (some "/rec/abc123.wav")).result =
      Except.ok () ∧
    Ev.deleteReq (some "/rec/abc123.wav") ∈
      (pipeline wAll (some "abc123") (some "/rec/abc123.wav")).events ∧
    Ev.saveFinish "abc123/abc123.wav" ∈
      (pipeline wAll (some "abc123") (some "/rec/abc123.wav")).events ∧
    Ev.saveFinish "abc123/abc123.txt" ∉
      (pipeline wAll (some "abc123") (some "/rec/abc123.wav")).events ∧
    Ev.saveFinish "abc123/abc123.json" ∉
      (pipeline wAll (some "abc123") (some "/rec/abc123.wav")).events ∧
    (pipeline wAll (some "abc123") (some "/rec/abc123.wav")).pending =
      ["abc123/abc123.txt", "abc123/abc123.json"] := by
  decide
